import Mathlib

/-!
Shallow embedding of `src/web_analytics_connector.py`
(GoogleAnalyticsConnector and SimilarwebConnector) and of the pieces of
`BaseDataConnector` that the spec describes but whose source is not in the
repository (`_validate_data`; those definitions are marked
"Modelled from the spec").

Modelling conventions:
* pandas DataFrames are lists of rows, each row an association list from
  column name to a typed scalar (`Value`); Python dicts preserve insertion
  order, so a row is an ordered association list with unique keys maintained
  by `dictInsert`.  `pd.DataFrame(list_of_dicts)` has as columns the union of
  the rows' keys in order of first appearance (`DataFrame.columns`).
  NaN-filling of keys missing from some rows is not modelled: a row simply
  lacks the key (no claim depends on the NaN cells themselves).
* Python floats are modelled exactly as rationals (`Rat`); `float(s)` is
  `parseFloat?`, a decimal/scientific grammar.  Exotic inputs accepted by
  CPython (`inf`, `nan`, underscores, surrounding whitespace) are outside the
  grammar; no claim depends on them.
* raised Python exceptions are modelled by `Except PyErr`; `typeConversionError`
  is the spec's taxonomy name for the `ValueError` of `float(...)` and the
  parse failure of `pd.to_datetime(...)`.
* JSON field access `response.get(k, default)` / `'k' not in response` is
  modelled by `Option` fields on decoded response structures, following the
  spec's own design note ("explicit optional/nullable fields in a decoded
  response type").
-/

/-- A typed scalar cell of a result table: string, float64 (modelled as an
exact rational) or date. -/
inductive Value where
  | str (s : String)
  | num (q : Rat)
  | date (y : Nat) (m : Nat) (d : Nat)
deriving DecidableEq, Repr

/-- Error taxonomy of the embedding, following the spec's §7 names plus the
Python built-in errors the code can raise (`IndexError` from
`dimension_headers[i]` / `metric_headers[i]`, `KeyError` from `df['date']`
on a frame without that column). -/
inductive PyErr where
  | indexError
  | keyError
  | typeConversionError
  | validationError
deriving DecidableEq, Repr

/-- A table row: a Python dict from column name to cell, as an ordered
association list. -/
abbrev TableRow := List (String × Value)

/-- The keys of a row, in order. -/
def rowKeys (r : TableRow) : List String := r.map Prod.fst

/-- Python dict assignment `d[k] = v`: if `k` is present the value is replaced
in place (position kept), otherwise the pair is appended at the end. -/
def dictInsert (d : TableRow) (k : String) (v : Value) : TableRow :=
  if d.any (fun p => p.1 == k) then
    d.map (fun p => if p.1 == k then (k, v) else p)
  else
    d ++ [(k, v)]

/-- A pandas DataFrame, modelled as its list of rows. -/
structure DataFrame where
  rows : List TableRow
deriving DecidableEq, Repr

/-- Insert a column name into an accumulator of seen columns, keeping first
appearance order. -/
def insertCol (acc : List String) (k : String) : List String :=
  if k ∈ acc then acc else acc ++ [k]

/-- Fold one row's keys into the accumulated column list. -/
def addRowCols (acc : List String) (r : TableRow) : List String :=
  (rowKeys r).foldl insertCol acc

/-- `df.columns`: for a frame built from a list of dicts, the union of the
rows' keys in order of first appearance. -/
def DataFrame.columns (df : DataFrame) : List String :=
  df.rows.foldl addRowCols []

/-- Numeral value of a digit list (most significant first); the argument is
assumed to consist of digits. -/
def digitsVal (cs : List Char) : Nat :=
  cs.foldl (fun a c => a * 10 + (c.toNat - 48)) 0

/-- Parse an optional leading sign, returning the sign and the rest. -/
def parseSign : List Char → Int × List Char
  | '+' :: rest => (1, rest)
  | '-' :: rest => (-1, rest)
  | cs => (1, cs)

/-- Character-level front end of the `float(s)` grammar: optional sign,
decimal digits with at most one point (at least one digit overall), optional
`e`/`E` exponent.  Returns the sign, the integer-part value, the
fraction-part value and length, and the exponent. -/
def parseFloatParts? (s : String) : Option (Int × Nat × Nat × Nat × Int) :=
  let (sign, cs) := parseSign s.toList
  let ip := cs.takeWhile Char.isDigit
  let cs := cs.dropWhile Char.isDigit
  let (fp, cs) :=
    match cs with
    | '.' :: rest => (rest.takeWhile Char.isDigit, rest.dropWhile Char.isDigit)
    | _ => ([], cs)
  if ip = [] ∧ fp = [] then none
  else
    match cs with
    | [] => some (sign, digitsVal ip, digitsVal fp, fp.length, 0)
    | c :: rest =>
      if c = 'e' ∨ c = 'E' then
        let (esign, rest) := parseSign rest
        let ed := rest.takeWhile Char.isDigit
        let rest := rest.dropWhile Char.isDigit
        if ed = [] ∨ rest ≠ [] then none
        else some (sign, digitsVal ip, digitsVal fp, fp.length,
          esign * (digitsVal ed : Int))
      else none

/-- Numeric value of the parsed pieces:
`sign * (intpart + fracpart / 10^fraclen) * 10^exponent`. -/
def ratOfFloatParts : Int × Nat × Nat × Nat × Int → Rat
  | (sign, ip, fp, flen, ex) =>
    (sign : Rat) * ((ip : Rat) + (fp : Rat) / (10 : Rat) ^ flen)
      * (10 : Rat) ^ ex

/-- Model of Python `float(s)`.  Returns `none` exactly when CPython would
raise `ValueError` (up to the conventions in the header comment). -/
def parseFloat? (s : String) : Option Rat :=
  (parseFloatParts? s).map ratOfFloatParts

/-- Digits-only reading of a character list. -/
def natOfDigits? (cs : List Char) : Option Nat :=
  if cs ≠ [] ∧ cs.all Char.isDigit then some (digitsVal cs) else none

/-- Basic calendar plausibility used by the date parser. -/
def mkDate? (y m d : Nat) : Option Value :=
  if 1 ≤ m ∧ m ≤ 12 ∧ 1 ≤ d ∧ d ≤ 31 then some (Value.date y m d) else none

/-- Character-level body of `parseDate?`. -/
def parseDateChars? (cs : List Char) : Option Value :=
  if cs.length = 10 ∧ cs.get? 4 = some '-' ∧ cs.get? 7 = some '-' then
    match natOfDigits? (cs.take 4), natOfDigits? ((cs.drop 5).take 2),
        natOfDigits? (cs.drop 8) with
    | some y, some m, some d => mkDate? y m d
    | _, _, _ => none
  else if cs.length = 7 ∧ cs.get? 4 = some '-' then
    match natOfDigits? (cs.take 4), natOfDigits? (cs.drop 5) with
    | some y, some m => mkDate? y m 1
    | _, _ => none
  else if cs.length = 8 then
    match natOfDigits? (cs.take 4), natOfDigits? ((cs.drop 4).take 2),
        natOfDigits? (cs.drop 6) with
    | some y, some m, some d => mkDate? y m d
    | _, _, _ => none
  else none

/-- Model of the string parsing done by `pd.to_datetime`, restricted to the
formats these APIs produce: ISO `YYYY-MM-DD`, month `YYYY-MM` (day 1), and
the GA4 compact `YYYYMMDD`.  `none` models the parse error pandas raises on
a malformed date string. -/
def parseDate? (s : String) : Option Value :=
  parseDateChars? s.toList

/-- `pd.to_datetime` applied to one cell: a string is parsed (error on
failure); a numeric cell is accepted by pandas (epoch interpretation) — its
converted value is irrelevant to every property here, so it is kept as is;
an already-converted date passes through. -/
def toDatetimeValue : Value → Except PyErr Value
  | Value.str s =>
    match parseDate? s with
    | some d => Except.ok d
    | none => Except.error PyErr.typeConversionError
  | Value.num q => Except.ok (Value.num q)
  | Value.date y m d => Except.ok (Value.date y m d)

/-- Apply `pd.to_datetime` to the `date` entries of one row. -/
def convertRowDate : TableRow → Except PyErr TableRow
  | [] => Except.ok []
  | (k, v) :: rest =>
    match (if k = "date" then toDatetimeValue v else Except.ok v) with
    | Except.error e => Except.error e
    | Except.ok v' =>
      match convertRowDate rest with
      | Except.error e => Except.error e
      | Except.ok rest' => Except.ok ((k, v') :: rest')

/-- `df['date'] = pd.to_datetime(df['date'])`, cell by cell. -/
def convertDateColumn : List TableRow → Except PyErr (List TableRow)
  | [] => Except.ok []
  | r :: rest =>
    match convertRowDate r with
    | Except.error e => Except.error e
    | Except.ok r' =>
      match convertDateColumn rest with
      | Except.error e => Except.error e
      | Except.ok rest' => Except.ok (r' :: rest')

/-- Is a cell numeric? -/
def Value.isNum : Value → Bool
  | Value.num _ => true
  | _ => false

/-- Is a cell a string? -/
def Value.isStr : Value → Bool
  | Value.str _ => true
  | _ => false

/-- All cells stored under column `c`. -/
def DataFrame.columnValues (df : DataFrame) (c : String) : List Value :=
  df.rows.filterMap (fun r => r.lookup c)

/-- One column is consistent when it does not mix numeric and string cells. -/
def columnConsistent (vs : List Value) : Bool :=
  ¬ (vs.any Value.isNum ∧ vs.any Value.isStr)

/-- Modelled from the spec: `BaseDataConnector._validate_data` is not in
`src/`; per §4.4 it "verifies column types are consistent per-column (no
mixed numeric/string within one metric column), and returns the table
unchanged if valid", raising `ValidationError` otherwise. -/
def validateData (df : DataFrame) : Except PyErr DataFrame :=
  if df.columns.all (fun c => columnConsistent (df.columnValues c)) then
    Except.ok df
  else
    Except.error PyErr.validationError

/-- A `{name: ...}` entry of `dimensionHeaders` / `metricHeaders` and of the
request's metric/dimension lists. -/
structure NameEntry where
  name : String
deriving DecidableEq, Repr

/-- A `{value: ...}` entry of `dimensionValues` / `metricValues`. -/
structure ValueEntry where
  value : String
deriving DecidableEq, Repr

/-- One entry of the GA4 response's `rows` array.  `row.get('dimensionValues', [])`
and `row.get('metricValues', [])` are modelled by `Option` plus `getD []`. -/
structure GARow where
  dimensionValues : Option (List ValueEntry)
  metricValues : Option (List ValueEntry)
deriving DecidableEq, Repr

/-- Decoded GA4 `runReport` response.  `'rows' not in response` is `rows = none`;
`response.get('dimensionHeaders', [])` / `response.get('metricHeaders', [])`
are the `Option` fields read with `getD []`. -/
structure GAResponse where
  rows : Option (List GARow)
  dimensionHeaders : Option (List NameEntry)
  metricHeaders : Option (List NameEntry)
deriving DecidableEq, Repr

/-- One `{'startDate': ..., 'endDate': ...}` entry of `dateRanges`. -/
structure DateRange where
  startDate : String
  endDate : String
deriving DecidableEq, Repr

/-- The JSON body `get_data` posts: `{'dateRanges': [...], 'metrics': [...],
'dimensions': [...]}`. -/
structure GARequestBody where
  dateRanges : List DateRange
  metrics : List NameEntry
  dimensions : List NameEntry
deriving DecidableEq, Repr

/-- The full HTTP request `get_data` hands to `_make_request`. -/
structure GARequest where
  endpoint : String
  method : String
  body : GARequestBody
deriving DecidableEq, Repr

/-- The enumerate-and-index loops of `get_data`
(`for i, v in enumerate(values): row_data[headers[i]] = conv(v['value'])`),
with `conv` the per-kind conversion.  Walking headers and values in lockstep
uses exactly `headers[i]` at the `i`-th value.  Python evaluates the
assignment's right-hand side before the subscript target, so the conversion
runs first and running out of headers while a value remains is the
`IndexError` from `headers[i]` raised afterwards. -/
def addEnumeratedValues (conv : String → Except PyErr Value) :
    List String → List ValueEntry → TableRow → Except PyErr TableRow
  | _, [], row_data => Except.ok row_data
  | hs, v :: vs, row_data =>
    match conv v.value with
    | Except.error e => Except.error e
    | Except.ok x =>
      match hs with
      | [] => Except.error PyErr.indexError
      | h :: hs2 => addEnumeratedValues conv hs2 vs (dictInsert row_data h x)

/-- Dimension cells are stored as strings: `row_data[...] = dim_value['value']`. -/
def convDimension (s : String) : Except PyErr Value :=
  Except.ok (Value.str s)

/-- Metric cells go through `float(met_value['value'])`; a non-numeric string
raises (`TypeConversionError` in the spec's taxonomy). -/
def convMetric (s : String) : Except PyErr Value :=
  match parseFloat? s with
  | some q => Except.ok (Value.num q)
  | none => Except.error PyErr.typeConversionError

/-- The per-row body of the flattening loop: dimensions first, then metrics,
into one `row_data` dict. -/
def flattenGARow (dimension_headers metric_headers : List String) (row : GARow) :
    Except PyErr TableRow :=
  match addEnumeratedValues convDimension dimension_headers
      (row.dimensionValues.getD []) [] with
  | Except.error e => Except.error e
  | Except.ok row_data =>
    addEnumeratedValues convMetric metric_headers (row.metricValues.getD []) row_data

/-- `for row in rows: ... flattened_data.append(row_data)`. -/
def flattenGARows (dimension_headers metric_headers : List String) :
    List GARow → Except PyErr (List TableRow)
  | [] => Except.ok []
  | r :: rs =>
    match flattenGARow dimension_headers metric_headers r with
    | Except.error e => Except.error e
    | Except.ok row_data =>
      match flattenGARows dimension_headers metric_headers rs with
      | Except.error e => Except.error e
      | Except.ok rest => Except.ok (row_data :: rest)

namespace GoogleAnalyticsConnector

/-- Default value of `get_data`'s `start_date` parameter. -/
def get_data_default_start_date : String := "30daysAgo"

/-- Default value of `get_data`'s `end_date` parameter. -/
def get_data_default_end_date : String := "today"

/-- The request-shaping half of `GoogleAnalyticsConnector.get_data`: the
defaulting of `dimensions` (`None` becomes `['date']`, via `getD`), the
request body, and the endpoint/method passed to `_make_request`. -/
def get_data_request (property_id : String) (metrics : List String)
    (dimensions : Option (List String)) ( start_date end_date : String) :
    GARequest :=
  let dims := dimensions.getD ["date"]
  { endpoint := "properties/" ++ property_id ++ ":runReport"
  , method := "POST"
  , body :=
    { dateRanges := [{ startDate := start_date, endDate := end_date }]
    , metrics := metrics.map (fun metric => { name := metric })
    , dimensions := dims.map (fun dimension => { name := dimension }) } }

/-- The response-normalization half of `GoogleAnalyticsConnector.get_data`,
parameterized by the validator so that independence from `_validate_data`
can be stated: missing `rows` short-circuits to an empty frame; otherwise
header name lists are extracted (missing header lists default to `[]`), the
rows are flattened, the `date` column (when present) is converted with
`pd.to_datetime`, and the validator runs last. -/
def get_data_result_with
    (validate : DataFrame → Except PyErr DataFrame) (response : GAResponse) :
    Except PyErr DataFrame :=
  match response.rows with
  | none => Except.ok { rows := [] }
  | some rows =>
    let dimension_headers := (response.dimensionHeaders.getD []).map NameEntry.name
    let metric_headers := (response.metricHeaders.getD []).map NameEntry.name
    match flattenGARows dimension_headers metric_headers rows with
    | Except.error e => Except.error e
    | Except.ok flattened_data =>
      let df : DataFrame := { rows := flattened_data }
      if "date" ∈ df.columns then
        match convertDateColumn df.rows with
        | Except.error e => Except.error e
        | Except.ok rows2 => validate { rows := rows2 }
      else validate df

/-- `GoogleAnalyticsConnector.get_data` on an already-received response, with
the spec-modelled `_validate_data` as validator. -/
def get_data_result (response : GAResponse) : Except PyErr DataFrame :=
  get_data_result_with validateData response

/-- `GoogleAnalyticsConnector.get_available_datasets`: the fixed catalog.
The Python dicts' `type` key is the `kind` field (Lean reserves `type`). -/
def get_available_datasets : List (String × String × String) :=
  [ ("sessions", "metric", "Total number of sessions")
  , ("users", "metric", "Total number of users")
  , ("pageviews", "metric", "Total number of pageviews")
  , ("bounceRate", "metric", "Bounce rate percentage")
  , ("sessionDuration", "metric", "Average session duration")
  , ("date", "dimension", "Date dimension")
  , ("country", "dimension", "Country dimension")
  , ("deviceCategory", "dimension", "Device category")
  , ("source", "dimension", "Traffic source")
  , ("medium", "dimension", "Traffic medium") ]

/-- `GoogleAnalyticsConnector.get_traffic_sources` fixes
`metrics = ['sessions', 'users']`, `dimensions = ['source', 'medium']` and
delegates to `get_data`: the request it builds. -/
def get_traffic_sources_request (property_id start_date end_date : String) :
    GARequest :=
  get_data_request property_id ["sessions", "users"]
    (some ["source", "medium"]) start_date end_date

/-- `GoogleAnalyticsConnector.get_traffic_sources` on an already-received
response: identical to `get_data`'s normalization. -/
def get_traffic_sources_result (response : GAResponse) : Except PyErr DataFrame :=
  get_data_result response

end GoogleAnalyticsConnector

/-- Decoded Similarweb visits response: `'visits' not in response` is
`visits = none`; each entry of the `visits` array is a JSON object, i.e. a
dict of named scalars. -/
structure SWResponse where
  visits : Option (List TableRow)
deriving DecidableEq, Repr

/-- The `params` dict of `SimilarwebConnector.get_website_overview`. -/
structure SWOverviewParams where
  start_date : String
  end_date : String
  country : String
  granularity : String
  main_domain_only : String
deriving DecidableEq, Repr

/-- The `params` dict of `SimilarwebConnector.get_traffic_sources`. -/
structure SWTrafficSourcesParams where
  start_date : String
  end_date : String
  country : String
  main_domain_only : String
deriving DecidableEq, Repr

namespace SimilarwebConnector

/-- The GET request `get_website_overview` hands to `_make_request`:
endpoint and query parameters. -/
def get_website_overview_request (domain start_date end_date country
    granularity : String) : String × SWOverviewParams :=
  ( "website/" ++ domain ++ "/total-traffic-and-engagement/visits"
  , { start_date := start_date
    , end_date := end_date
    , country := country
    , granularity := granularity
    , main_domain_only := "false" } )

/-- `SimilarwebConnector.get_website_overview` on an already-received
response: missing `visits` short-circuits to an empty frame; otherwise the
entries become the rows (`pd.DataFrame(visits_data)`), `df['domain'] = domain`
writes a constant column, and `df['date'] = pd.to_datetime(df['date'])` runs
unguarded — reading `df['date']` on a frame without that column is Python's
`KeyError`.  `_validate_data` (spec-modelled) runs last. -/
def get_website_overview_result (domain : String) (response : SWResponse) :
    Except PyErr DataFrame :=
  match response.visits with
  | none => Except.ok { rows := [] }
  | some visits_data =>
    let df : DataFrame := { rows := visits_data }
    let df : DataFrame :=
      { rows := df.rows.map (fun r => dictInsert r "domain" (Value.str domain)) }
    if "date" ∈ df.columns then
      match convertDateColumn df.rows with
      | Except.error e => Except.error e
      | Except.ok rows2 => validateData { rows := rows2 }
    else Except.error PyErr.keyError

/-- `SimilarwebConnector.get_available_datasets`: the fixed endpoint catalog
(`{name, description}` dicts). -/
def get_available_datasets : List (String × String) :=
  [ ("website_overview", "Website traffic overview")
  , ("traffic_sources", "Website traffic sources")
  , ("audience_interests", "Audience interests")
  , ("similar_sites", "Similar websites")
  , ("top_pages", "Top performing pages") ]

/-- `SimilarwebConnector.get_traffic_sources` exactly as written in the
source: the body builds the `params` dict and then the function ends — no
request is issued and no value is returned, so the Python call evaluates to
`None`.  The result is modelled as `Option DataFrame` with `none` for
Python's `None`. -/
def get_traffic_sources (domain start_date end_date country : String) :
    Option DataFrame :=
  let _params : SWTrafficSourcesParams :=
    { start_date := start_date
    , end_date := end_date
    , country := country
    , main_domain_only := "false" }
  none

end SimilarwebConnector

/-- Run a conversion over a list of `{value: ...}` entries, stopping at the
first failure — the sequencing that `addEnumeratedValues` performs, separated
from the dict building so it can appear in statements. -/
def convAll (conv : String → Except PyErr Value) :
    List ValueEntry → Except PyErr (List Value)
  | [] => Except.ok []
  | v :: vs =>
    match conv v.value with
    | Except.error e => Except.error e
    | Except.ok x =>
      match convAll conv vs with
      | Except.error e => Except.error e
      | Except.ok xs => Except.ok (x :: xs)

/-- `float` applied to every metric value string, `none` as soon as one is
non-numeric. -/
def parseMetricValues? : List ValueEntry → Option (List Rat)
  | [] => some []
  | v :: vs =>
    match parseFloat? v.value, parseMetricValues? vs with
    | some q, some qs => some (q :: qs)
    | _, _ => none

/-- Mocked GA4 response of the spec's `get_traffic_sources` scenario: one row
`{dimensionValues:[{value:"google"},{value:"organic"}],
metricValues:[{value:"10"},{value:"8"}]}` under source/medium and
sessions/users headers. -/
def c5_response : GAResponse :=
  { rows := some
      [ { dimensionValues := some [{ value := "google" }, { value := "organic" }]
        , metricValues := some [{ value := "10" }, { value := "8" }] } ]
  , dimensionHeaders := some [{ name := "source" }, { name := "medium" }]
  , metricHeaders := some [{ name := "sessions" }, { name := "users" }] }

/-- GA4 response with `rows` present but the empty list, and nonempty header
lists. -/
def c3_empty_rows_response : GAResponse :=
  { rows := some []
  , dimensionHeaders := some [{ name := "date" }]
  , metricHeaders := some [{ name := "sessions" }] }

/-- A one-row, one-dimension, one-metric GA4 response. -/
def c3_small_response : GAResponse :=
  { rows := some
      [ { dimensionValues := some [{ value := "US" }]
        , metricValues := some [{ value := "3" }] } ]
  , dimensionHeaders := some [{ name := "country" }]
  , metricHeaders := some [{ name := "sessions" }] }

/-- A GA4 row whose single metric value is non-numeric. -/
def c4_bad_row : GARow :=
  { dimensionValues := none, metricValues := some [{ value := "abc" }] }

/-- GA4 response containing `c4_bad_row`. -/
def c4_bad_response : GAResponse :=
  { rows := some [c4_bad_row]
  , dimensionHeaders := none
  , metricHeaders := some [{ name := "sessions" }] }

/-- A GA4 row for exercising the flattening bindings. -/
def c4_good_row : GARow :=
  { dimensionValues := some [{ value := "google" }]
  , metricValues := some [{ value := "10" }] }

/-- GA4 response whose metric value string is `"123.45"`. -/
def c9_response : GAResponse :=
  { rows := some [{ dimensionValues := none
                  , metricValues := some [{ value := "123.45" }] }]
  , dimensionHeaders := none
  , metricHeaders := some [{ name := "sessions" }] }

/-- GA4 response with `rows` present, a nonempty `dimensionValues`, and no
header lists at all (they default to `[]`). -/
def c10_bad_response : GAResponse :=
  { rows := some [{ dimensionValues := some [{ value := "x" }]
                  , metricValues := none }]
  , dimensionHeaders := none
  , metricHeaders := none }

/-- GA4 response without a `rows` key. -/
def c2_witness_response : GAResponse :=
  { rows := none
  , dimensionHeaders := some [{ name := "date" }]
  , metricHeaders := some [{ name := "sessions" }] }

/-- One Similarweb visits entry with a parseable date. -/
def c6_visit_row : TableRow :=
  [("date", Value.str "2024-01-15"), ("visits", Value.num 100)]

/-- Similarweb response with a single well-formed visits entry. -/
def c6_response : SWResponse := { visits := some [c6_visit_row] }

/-- Similarweb response whose `visits` field is present but the empty list. -/
def c6_empty_visits_response : SWResponse := { visits := some [] }

theorem rowKeys_append (a b : TableRow) : rowKeys (a ++ b) = rowKeys a ++ rowKeys b := by
  simp [rowKeys]

theorem mem_rowKeys (d : TableRow) (k : String) :
    k ∈ rowKeys d ↔ ∃ p ∈ d, p.1 = k := by
  simp [rowKeys, List.mem_map]

theorem any_key_eq_true (d : TableRow) (k : String) :
    (d.any fun p => p.1 == k) = true ↔ k ∈ rowKeys d := by
  rw [mem_rowKeys]
  simp only [List.any_eq_true, beq_iff_eq]

theorem dictInsert_not_mem (d : TableRow) (k : String) (v : Value)
    (h : k ∉ rowKeys d) : dictInsert d k v = d ++ [(k, v)] := by
  unfold dictInsert
  have hc : ¬ ((d.any fun p => p.1 == k) = true) := by
    rw [any_key_eq_true]; exact h
  rw [if_neg hc]

theorem lookup_append_of_not_mem (d e : TableRow) (k : String)
    (h : k ∉ rowKeys d) : List.lookup k (d ++ e) = List.lookup k e := by
  induction d with
  | nil => simp
  | cons p rest ih =>
    have hk : k ≠ p.1 := by
      intro hkp
      exact h ((mem_rowKeys _ _).2 ⟨p, List.mem_cons_self p rest, hkp.symm⟩)
    have hrest : k ∉ rowKeys rest := by
      intro hm
      obtain ⟨q, hq, hq1⟩ := (mem_rowKeys _ _).1 hm
      exact h ((mem_rowKeys _ _).2 ⟨q, List.mem_cons_of_mem p hq, hq1⟩)
    calc List.lookup k ((p :: rest) ++ e) = List.lookup k (rest ++ e) := by
          rw [List.cons_append, List.lookup_cons, beq_false_of_ne hk]
      _ = List.lookup k e := ih hrest

theorem lookup_map_replace (d : TableRow) (k : String) (v : Value)
    (h : k ∈ rowKeys d) :
    List.lookup k (d.map (fun p => if p.1 == k then (k, v) else p)) = some v := by
  induction d with
  | nil => simp [rowKeys] at h
  | cons p rest ih =>
    by_cases hpk : p.1 = k
    · rw [List.map_cons]
      rw [show (if p.1 == k then (k, v) else p) = (k, v) from by simp [hpk]]
      rw [List.lookup_cons, beq_self_eq_true]
    · have hk : k ∈ rowKeys rest := by
        obtain ⟨q, hq, hq1⟩ := (mem_rowKeys _ _).1 h
        rcases List.mem_cons.1 hq with rfl | hq2
        · exact absurd hq1 hpk
        · exact (mem_rowKeys _ _).2 ⟨q, hq2, hq1⟩
      rw [List.map_cons]
      rw [show (if p.1 == k then (k, v) else p) = p from by simp [beq_false_of_ne hpk]]
      rw [List.lookup_cons, beq_false_of_ne (fun hkp => hpk hkp.symm)]
      exact ih hk

theorem lookup_dictInsert_self (d : TableRow) (k : String) (v : Value) :
    (dictInsert d k v).lookup k = some v := by
  unfold dictInsert
  by_cases h : k ∈ rowKeys d
  · rw [if_pos ((any_key_eq_true d k).2 h)]
    exact lookup_map_replace d k v h
  · rw [if_neg (fun hc => h ((any_key_eq_true d k).1 hc))]
    rw [lookup_append_of_not_mem d _ k h, List.lookup_cons, beq_self_eq_true]

theorem mem_dictInsert_cases (d : TableRow) (k : String) (v : Value)
    (p : String × Value) (hp : p ∈ dictInsert d k v) :
    p = (k, v) ∨ (p ∈ d ∧ p.1 ≠ k) := by
  unfold dictInsert at hp
  split at hp
  · obtain ⟨q, hq, hqp⟩ := List.mem_map.1 hp
    by_cases hqk : q.1 = k
    · left
      simp only [beq_iff_eq, hqk, if_true] at hqp
      exact hqp.symm
    · right
      simp only [beq_iff_eq, hqk, if_false] at hqp
      exact ⟨hqp ▸ hq, hqp ▸ hqk⟩
  · rename_i hany
    rcases List.mem_append.1 hp with h | h
    · right
      refine ⟨h, fun hk => hany ?_⟩
      exact (any_key_eq_true d k).2 ((mem_rowKeys _ _).2 ⟨p, h, hk⟩)
    · left; simpa using h

theorem mem_dictInsert_of_ne (d : TableRow) (k : String) (v : Value)
    (p : String × Value) (hp : p ∈ d) (hne : p.1 ≠ k) :
    p ∈ dictInsert d k v := by
  unfold dictInsert
  split
  · refine List.mem_map.2 ⟨p, hp, ?_⟩
    simp [beq_iff_eq, hne]
  · exact List.mem_append.2 (Or.inl hp)

theorem mem_rowKeys_dictInsert (d : TableRow) (k k' : String) (v : Value)
    (h : k' ∈ rowKeys d) : k' ∈ rowKeys (dictInsert d k v) := by
  unfold dictInsert
  split
  · obtain ⟨p, hp, hpk⟩ := (mem_rowKeys _ _).1 h
    by_cases hpk2 : p.1 = k
    · refine (mem_rowKeys _ _).2 ⟨(k, v), List.mem_map.2 ⟨p, hp, ?_⟩, by rw [← hpk, hpk2]⟩
      simp [beq_iff_eq, hpk2]
    · refine (mem_rowKeys _ _).2 ⟨p, List.mem_map.2 ⟨p, hp, ?_⟩, hpk⟩
      simp [beq_iff_eq, hpk2]
  · rw [rowKeys_append]
    exact List.mem_append.2 (Or.inl h)

theorem convAll_convDimension (vs : List ValueEntry) :
    convAll convDimension vs =
      Except.ok (vs.map (fun v => Value.str v.value)) := by
  induction vs with
  | nil => rfl
  | cons v vs ih => simp [convAll, convDimension, ih]

theorem convAll_convMetric (vs : List ValueEntry) :
    convAll convMetric vs =
      match parseMetricValues? vs with
      | some qs => Except.ok (qs.map Value.num)
      | none => Except.error PyErr.typeConversionError := by
  induction vs with
  | nil => rfl
  | cons v vs ih =>
    simp only [convAll, convMetric, parseMetricValues?, ih]
    cases parseFloat? v.value with
    | none => simp
    | some q =>
      cases parseMetricValues? vs with
      | none => simp
      | some qs => simp

theorem convAll_ok_length (conv : String → Except PyErr Value) :
    ∀ (vs : List ValueEntry) (ws : List Value),
      convAll conv vs = Except.ok ws → ws.length = vs.length := by
  intro vs
  induction vs with
  | nil =>
    intro ws h
    simp only [convAll, Except.ok.injEq] at h
    subst h; rfl
  | cons v vs ih =>
    intro ws h
    simp only [convAll] at h
    cases hcv : conv v.value with
    | error e => rw [hcv] at h; simp at h
    | ok x =>
      rw [hcv] at h
      cases hca : convAll conv vs with
      | error e => rw [hca] at h; simp at h
      | ok xs =>
        rw [hca] at h
        simp only [Except.ok.injEq] at h
        subst h
        simp [ih xs hca]

theorem rowKeys_singleton (h : String) (x : Value) : rowKeys [(h, x)] = [h] := by
  simp [rowKeys]

theorem addEnumeratedValues_ok_shape (conv : String → Except PyErr Value) :
    ∀ (vs : List ValueEntry) (hs : List String) (rd r : TableRow),
      addEnumeratedValues conv hs vs rd = Except.ok r →
      hs.length = vs.length →
      (rowKeys rd ++ hs).Nodup →
      ∃ ws, convAll conv vs = Except.ok ws ∧ ws.length = vs.length ∧
        r = rd ++ hs.zip ws := by
  intro vs
  induction vs with
  | nil =>
    intro hs rd r hok hlen _
    cases hs with
    | nil =>
      simp only [addEnumeratedValues, Except.ok.injEq] at hok
      subst hok
      exact ⟨[], rfl, rfl, by simp⟩
    | cons h hs => simp at hlen
  | cons v vs ih =>
    intro hs rd r hok hlen hnd
    cases hs with
    | nil => simp at hlen
    | cons h hs =>
      simp only [addEnumeratedValues] at hok
      cases hcv : conv v.value with
      | error e => rw [hcv] at hok; simp at hok
      | ok x =>
        rw [hcv] at hok
        simp only [] at hok
        have hfresh : h ∉ rowKeys rd := by
          intro hmem
          have hdisj := (List.nodup_append.1 hnd).2.2
          exact hdisj hmem (List.mem_cons_self h hs)
        rw [dictInsert_not_mem rd h x hfresh] at hok
        have hnd' : (rowKeys (rd ++ [(h, x)]) ++ hs).Nodup := by
          rw [rowKeys_append, rowKeys_singleton, List.append_assoc]
          exact hnd
        obtain ⟨ws, hca, hwlen, hr⟩ :=
          ih hs (rd ++ [(h, x)]) r hok (by simpa using hlen) hnd'
        refine ⟨x :: ws, ?_, by simp [hwlen], ?_⟩
        · simp [convAll, hcv, hca]
        · rw [hr, List.zip_cons_cons, List.append_assoc]
          rfl

theorem convDimension_total (s : String) : ∃ x, convDimension s = Except.ok x :=
  ⟨Value.str s, rfl⟩

theorem convDimension_never_errors (s : String) (e : PyErr)
    (h : convDimension s = Except.error e) : e = PyErr.typeConversionError := by
  simp [convDimension] at h

theorem convMetric_error_kind (s : String) (e : PyErr)
    (h : convMetric s = Except.error e) : e = PyErr.typeConversionError := by
  unfold convMetric at h
  cases hp : parseFloat? s with
  | none => rw [hp] at h; simpa using h.symm
  | some q => rw [hp] at h; simp at h

theorem convMetric_error_of_none (s : String) (h : parseFloat? s = none) :
    convMetric s = Except.error PyErr.typeConversionError := by
  simp [convMetric, h]

theorem addEnumeratedValues_error_kind (conv : String → Except PyErr Value)
    (hconv : ∀ s e, conv s = Except.error e → e = PyErr.typeConversionError) :
    ∀ (vs : List ValueEntry) (hs : List String) (rd : TableRow) (e : PyErr),
      vs.length ≤ hs.length →
      addEnumeratedValues conv hs vs rd = Except.error e →
      e = PyErr.typeConversionError := by
  intro vs
  induction vs with
  | nil =>
    intro hs rd e _ herr
    cases hs <;> simp [addEnumeratedValues] at herr
  | cons v vs ih =>
    intro hs rd e hle herr
    cases hs with
    | nil => simp at hle
    | cons h hs =>
      simp only [addEnumeratedValues] at herr
      cases hcv : conv v.value with
      | error e2 =>
        rw [hcv] at herr
        simp only [Except.error.injEq] at herr
        exact herr ▸ hconv v.value e2 hcv
      | ok x =>
        rw [hcv] at herr
        exact ih hs (dictInsert rd h x) e (by simpa using hle) herr

theorem addEnumeratedValues_ok_total (conv : String → Except PyErr Value)
    (hconv : ∀ s, ∃ x, conv s = Except.ok x) :
    ∀ (vs : List ValueEntry) (hs : List String) (rd : TableRow),
      vs.length ≤ hs.length →
      ∃ r, addEnumeratedValues conv hs vs rd = Except.ok r := by
  intro vs
  induction vs with
  | nil =>
    intro hs rd _
    cases hs with
    | nil => exact ⟨rd, rfl⟩
    | cons h hs => exact ⟨rd, rfl⟩
  | cons v vs ih =>
    intro hs rd hle
    cases hs with
    | nil => simp at hle
    | cons h hs =>
      obtain ⟨x, hx⟩ := hconv v.value
      obtain ⟨r, hr⟩ := ih hs (dictInsert rd h x) (by simpa using hle)
      exact ⟨r, by simp [addEnumeratedValues, hx, hr]⟩

theorem addEnumeratedValues_error_of_bad (conv : String → Except PyErr Value) :
    ∀ (vs : List ValueEntry) (hs : List String) (rd : TableRow),
      vs.length ≤ hs.length →
      (∃ v ∈ vs, ∃ e, conv v.value = Except.error e) →
      ∃ e, addEnumeratedValues conv hs vs rd = Except.error e := by
  intro vs
  induction vs with
  | nil =>
    intro hs rd _ hbad
    simp at hbad
  | cons v vs ih =>
    intro hs rd hle hbad
    cases hs with
    | nil => simp at hle
    | cons h hs =>
      cases hcv : conv v.value with
      | error e => exact ⟨e, by simp [addEnumeratedValues, hcv]⟩
      | ok x =>
        obtain ⟨v2, hv2, e2, he2⟩ := hbad
        rcases List.mem_cons.1 hv2 with rfl | hv2tail
        · rw [hcv] at he2; simp at he2
        · obtain ⟨e, he⟩ :=
            ih hs (dictInsert rd h x) (by simpa using hle) ⟨v2, hv2tail, e2, he2⟩
          exact ⟨e, by simp [addEnumeratedValues, hcv, he]⟩

theorem addEnumeratedValues_indexError_of_long (conv : String → Except PyErr Value)
    (hconv : ∀ s, ∃ x, conv s = Except.ok x) :
    ∀ (vs : List ValueEntry) (hs : List String) (rd : TableRow),
      hs.length < vs.length →
      addEnumeratedValues conv hs vs rd = Except.error PyErr.indexError := by
  intro vs
  induction vs with
  | nil => intro hs rd hlt; simp at hlt
  | cons v vs ih =>
    intro hs rd hlt
    cases hs with
    | nil =>
      obtain ⟨x, hx⟩ := hconv v.value
      simp [addEnumeratedValues, hx]
    | cons h hs =>
      obtain ⟨x, hx⟩ := hconv v.value
      have hrec := ih hs (dictInsert rd h x) (by simpa using hlt)
      simp [addEnumeratedValues, hx, hrec]

theorem rowKeys_zip (hs : List String) (ws : List Value)
    (hlen : hs.length ≤ ws.length) : rowKeys (hs.zip ws) = hs := by
  unfold rowKeys
  exact List.map_fst_zip hs ws hlen

theorem flattenGARow_ok_shape (dh mh : List String) (row : GARow) (r : TableRow)
    (hdlen : (row.dimensionValues.getD []).length = dh.length)
    (hmlen : (row.metricValues.getD []).length = mh.length)
    (hnd : (dh ++ mh).Nodup)
    (hok : flattenGARow dh mh row = Except.ok r) :
    ∃ ws, convAll convMetric (row.metricValues.getD []) = Except.ok ws ∧
      ws.length = mh.length ∧
      r = dh.zip ((row.dimensionValues.getD []).map (fun v => Value.str v.value))
        ++ mh.zip ws := by
  unfold flattenGARow at hok
  cases h1 : addEnumeratedValues convDimension dh (row.dimensionValues.getD []) [] with
  | error e => rw [h1] at hok; simp at hok
  | ok rd1 =>
    rw [h1] at hok
    have hnd1 : (rowKeys ([] : TableRow) ++ dh).Nodup := by
      simpa [rowKeys] using (List.nodup_append.1 hnd).1
    obtain ⟨ws1, hca1, hw1len, hrd1⟩ :=
      addEnumeratedValues_ok_shape convDimension _ dh [] rd1 h1 hdlen.symm hnd1
    rw [convAll_convDimension] at hca1
    have hws1 : ws1 = (row.dimensionValues.getD []).map (fun v => Value.str v.value) := by
      simpa using hca1.symm
    have hrd1' : rd1 = dh.zip ((row.dimensionValues.getD []).map (fun v => Value.str v.value)) := by
      rw [hrd1, hws1]; simp
    have hkeys1 : rowKeys rd1 = dh := by
      rw [hrd1']
      exact rowKeys_zip dh _ (by simp [hdlen])
    have hnd2 : (rowKeys rd1 ++ mh).Nodup := by rw [hkeys1]; exact hnd
    obtain ⟨ws, hca, hwlen, hr⟩ :=
      addEnumeratedValues_ok_shape convMetric _ mh rd1 r hok hmlen.symm hnd2
    refine ⟨ws, hca, by rw [hwlen, hmlen], ?_⟩
    rw [hr, hrd1']

theorem flattenGARow_keys (dh mh : List String) (row : GARow) (r : TableRow)
    (hdlen : (row.dimensionValues.getD []).length = dh.length)
    (hmlen : (row.metricValues.getD []).length = mh.length)
    (hnd : (dh ++ mh).Nodup)
    (hok : flattenGARow dh mh row = Except.ok r) :
    rowKeys r = dh ++ mh := by
  obtain ⟨ws, _, hwlen, hr⟩ := flattenGARow_ok_shape dh mh row r hdlen hmlen hnd hok
  rw [hr, rowKeys_append, rowKeys_zip dh _ (by simp [hdlen]),
    rowKeys_zip mh ws (by rw [hwlen])]

theorem flattenGARow_error_kind (dh mh : List String) (row : GARow) (e : PyErr)
    (hdle : (row.dimensionValues.getD []).length ≤ dh.length)
    (hmle : (row.metricValues.getD []).length ≤ mh.length)
    (herr : flattenGARow dh mh row = Except.error e) :
    e = PyErr.typeConversionError := by
  unfold flattenGARow at herr
  cases h1 : addEnumeratedValues convDimension dh (row.dimensionValues.getD []) [] with
  | error e1 =>
    rw [h1] at herr
    simp only [Except.error.injEq] at herr
    exact herr ▸
      addEnumeratedValues_error_kind convDimension convDimension_never_errors
        _ dh [] e1 hdle h1
  | ok rd1 =>
    rw [h1] at herr
    exact addEnumeratedValues_error_kind convMetric convMetric_error_kind
      _ mh rd1 e hmle herr

theorem flattenGARow_error_of_bad (dh mh : List String) (row : GARow)
    (hdle : (row.dimensionValues.getD []).length ≤ dh.length)
    (hmle : (row.metricValues.getD []).length ≤ mh.length)
    (hbad : ∃ v ∈ row.metricValues.getD [], parseFloat? v.value = none) :
    flattenGARow dh mh row = Except.error PyErr.typeConversionError := by
  obtain ⟨rd1, h1⟩ :=
    addEnumeratedValues_ok_total convDimension convDimension_total
      (row.dimensionValues.getD []) dh [] hdle
  obtain ⟨v, hv, hnone⟩ := hbad
  obtain ⟨e, he⟩ :=
    addEnumeratedValues_error_of_bad convMetric (row.metricValues.getD []) mh rd1 hmle
      ⟨v, hv, PyErr.typeConversionError, convMetric_error_of_none v.value hnone⟩
  have hkind :=
    addEnumeratedValues_error_kind convMetric convMetric_error_kind
      _ mh rd1 e hmle he
  subst hkind
  simp [flattenGARow, h1, he]

theorem flattenGARow_indexError_dims (dh mh : List String) (row : GARow)
    (hlt : dh.length < (row.dimensionValues.getD []).length) :
    flattenGARow dh mh row = Except.error PyErr.indexError := by
  have h1 :=
    addEnumeratedValues_indexError_of_long convDimension convDimension_total
      (row.dimensionValues.getD []) dh [] hlt
  simp [flattenGARow, h1]

theorem flattenGARows_ok_length (dh mh : List String) :
    ∀ (rows : List GARow) (f : List TableRow),
      flattenGARows dh mh rows = Except.ok f → f.length = rows.length := by
  intro rows
  induction rows with
  | nil =>
    intro f h
    simp only [flattenGARows, Except.ok.injEq] at h
    subst h; rfl
  | cons row rest ih =>
    intro f h
    simp only [flattenGARows] at h
    cases h1 : flattenGARow dh mh row with
    | error e => rw [h1] at h; simp at h
    | ok rd =>
      rw [h1] at h
      cases h2 : flattenGARows dh mh rest with
      | error e => rw [h2] at h; simp at h
      | ok rest2 =>
        rw [h2] at h
        simp only [Except.ok.injEq] at h
        subst h
        simp [ih rest2 h2]

theorem flattenGARows_ok_mem (dh mh : List String) :
    ∀ (rows : List GARow) (f : List TableRow),
      flattenGARows dh mh rows = Except.ok f →
      ∀ r' ∈ f, ∃ row ∈ rows, flattenGARow dh mh row = Except.ok r' := by
  intro rows
  induction rows with
  | nil =>
    intro f h r' hr'
    simp only [flattenGARows, Except.ok.injEq] at h
    subst h; simp at hr'
  | cons row rest ih =>
    intro f h r' hr'
    simp only [flattenGARows] at h
    cases h1 : flattenGARow dh mh row with
    | error e => rw [h1] at h; simp at h
    | ok rd =>
      rw [h1] at h
      cases h2 : flattenGARows dh mh rest with
      | error e => rw [h2] at h; simp at h
      | ok rest2 =>
        rw [h2] at h
        simp only [Except.ok.injEq] at h
        subst h
        rcases List.mem_cons.1 hr' with rfl | hmem
        · exact ⟨row, List.mem_cons_self row rest, h1⟩
        · obtain ⟨row2, hrow2, hok2⟩ := ih rest2 h2 r' hmem
          exact ⟨row2, List.mem_cons_of_mem row hrow2, hok2⟩

theorem flattenGARows_error_kind (dh mh : List String) :
    ∀ (rows : List GARow) (e : PyErr),
      (∀ row ∈ rows, (row.dimensionValues.getD []).length ≤ dh.length ∧
        (row.metricValues.getD []).length ≤ mh.length) →
      flattenGARows dh mh rows = Except.error e →
      e = PyErr.typeConversionError := by
  intro rows
  induction rows with
  | nil => intro e _ h; simp [flattenGARows] at h
  | cons row rest ih =>
    intro e hle h
    simp only [flattenGARows] at h
    cases h1 : flattenGARow dh mh row with
    | error e1 =>
      rw [h1] at h
      simp only [Except.error.injEq] at h
      have hle1 := hle row (List.mem_cons_self row rest)
      exact h ▸ flattenGARow_error_kind dh mh row e1 hle1.1 hle1.2 h1
    | ok rd =>
      rw [h1] at h
      cases h2 : flattenGARows dh mh rest with
      | error e2 =>
        rw [h2] at h
        simp only [Except.error.injEq] at h
        exact h ▸ ih e2 (fun r hr => hle r (List.mem_cons_of_mem row hr)) h2
      | ok rest2 => rw [h2] at h; simp at h

theorem flattenGARows_error_of_bad (dh mh : List String) :
    ∀ (rows : List GARow),
      (∀ row ∈ rows, (row.dimensionValues.getD []).length ≤ dh.length ∧
        (row.metricValues.getD []).length ≤ mh.length) →
      (∃ row ∈ rows, ∃ v ∈ row.metricValues.getD [], parseFloat? v.value = none) →
      flattenGARows dh mh rows = Except.error PyErr.typeConversionError := by
  intro rows
  induction rows with
  | nil => intro _ hbad; simp at hbad
  | cons row rest ih =>
    intro hle hbad
    cases h1 : flattenGARow dh mh row with
    | error e1 =>
      have hle1 := hle row (List.mem_cons_self row rest)
      have := flattenGARow_error_kind dh mh row e1 hle1.1 hle1.2 h1
      subst this
      simp [flattenGARows, h1]
    | ok rd =>
      obtain ⟨row2, hrow2, hv⟩ := hbad
      rcases List.mem_cons.1 hrow2 with rfl | htail
      · have hle1 := hle row2 (List.mem_cons_self row2 rest)
        have := flattenGARow_error_of_bad dh mh row2 hle1.1 hle1.2 hv
        rw [h1] at this
        simp at this
      · have hrec := ih (fun r hr => hle r (List.mem_cons_of_mem row hr)) ⟨row2, htail, hv⟩
        simp [flattenGARows, h1, hrec]

theorem toDatetimeValue_error (v : Value) (e : PyErr)
    (h : toDatetimeValue v = Except.error e) : e = PyErr.typeConversionError := by
  cases v with
  | str s =>
    simp only [toDatetimeValue] at h
    cases hp : parseDate? s with
    | none =>
      rw [hp] at h
      simp only [Except.error.injEq] at h
      exact h.symm
    | some d => rw [hp] at h; simp at h
  | num q => simp [toDatetimeValue] at h
  | date y m d => simp [toDatetimeValue] at h

theorem convertRowDate_error_kind :
    ∀ (r : TableRow) (e : PyErr),
      convertRowDate r = Except.error e → e = PyErr.typeConversionError := by
  intro r
  induction r with
  | nil => intro e h; simp [convertRowDate] at h
  | cons p rest ih =>
    intro e h
    obtain ⟨k, v⟩ := p
    simp only [convertRowDate] at h
    cases hcv : (if k = "date" then toDatetimeValue v else Except.ok v) with
    | error e1 =>
      rw [hcv] at h
      simp only [Except.error.injEq] at h
      subst h
      by_cases hk : k = "date"
      · rw [if_pos hk] at hcv
        exact toDatetimeValue_error v e1 hcv
      · rw [if_neg hk] at hcv; simp at hcv
    | ok v' =>
      rw [hcv] at h
      cases hrec : convertRowDate rest with
      | error e2 =>
        rw [hrec] at h
        simp only [Except.error.injEq] at h
        exact h ▸ ih e2 hrec
      | ok rest' => rw [hrec] at h; simp at h

theorem convertRowDate_ok_keys :
    ∀ (r r' : TableRow), convertRowDate r = Except.ok r' → rowKeys r' = rowKeys r := by
  intro r
  induction r with
  | nil =>
    intro r' h
    simp only [convertRowDate, Except.ok.injEq] at h
    subst h; rfl
  | cons p rest ih =>
    intro r' h
    obtain ⟨k, v⟩ := p
    simp only [convertRowDate] at h
    cases hcv : (if k = "date" then toDatetimeValue v else Except.ok v) with
    | error e1 => rw [hcv] at h; simp at h
    | ok v' =>
      rw [hcv] at h
      cases hrec : convertRowDate rest with
      | error e2 => rw [hrec] at h; simp at h
      | ok rest' =>
        rw [hrec] at h
        simp only [Except.ok.injEq] at h
        subst h
        have hk := ih rest' hrec
        simp only [rowKeys, List.map_cons] at hk ⊢
        rw [hk]

theorem convertDateColumn_error_kind :
    ∀ (rows : List TableRow) (e : PyErr),
      convertDateColumn rows = Except.error e → e = PyErr.typeConversionError := by
  intro rows
  induction rows with
  | nil => intro e h; simp [convertDateColumn] at h
  | cons r rest ih =>
    intro e h
    simp only [convertDateColumn] at h
    cases h1 : convertRowDate r with
    | error e1 =>
      rw [h1] at h
      simp only [Except.error.injEq] at h
      exact h ▸ convertRowDate_error_kind r e1 h1
    | ok r' =>
      rw [h1] at h
      cases h2 : convertDateColumn rest with
      | error e2 =>
        rw [h2] at h
        simp only [Except.error.injEq] at h
        exact h ▸ ih e2 h2
      | ok rest' => rw [h2] at h; simp at h

theorem convertDateColumn_ok_keys :
    ∀ (rows rows2 : List TableRow),
      convertDateColumn rows = Except.ok rows2 →
      rows2.map rowKeys = rows.map rowKeys := by
  intro rows
  induction rows with
  | nil =>
    intro rows2 h
    simp only [convertDateColumn, Except.ok.injEq] at h
    subst h; rfl
  | cons r rest ih =>
    intro rows2 h
    simp only [convertDateColumn] at h
    cases h1 : convertRowDate r with
    | error e1 => rw [h1] at h; simp at h
    | ok r' =>
      rw [h1] at h
      cases h2 : convertDateColumn rest with
      | error e2 => rw [h2] at h; simp at h
      | ok rest' =>
        rw [h2] at h
        simp only [Except.ok.injEq] at h
        subst h
        simp [convertRowDate_ok_keys r r' h1, ih rest' h2]

theorem convertDateColumn_ok_length (rows rows2 : List TableRow)
    (h : convertDateColumn rows = Except.ok rows2) : rows2.length = rows.length := by
  have := congrArg List.length (convertDateColumn_ok_keys rows rows2 h)
  simpa using this

theorem convertDateColumn_ok_mem :
    ∀ (rows rows2 : List TableRow),
      convertDateColumn rows = Except.ok rows2 →
      ∀ r' ∈ rows2, ∃ r ∈ rows, convertRowDate r = Except.ok r' := by
  intro rows
  induction rows with
  | nil =>
    intro rows2 h r' hr'
    simp only [convertDateColumn, Except.ok.injEq] at h
    subst h; simp at hr'
  | cons r rest ih =>
    intro rows2 h r' hr'
    simp only [convertDateColumn] at h
    cases h1 : convertRowDate r with
    | error e1 => rw [h1] at h; simp at h
    | ok r1 =>
      rw [h1] at h
      cases h2 : convertDateColumn rest with
      | error e2 => rw [h2] at h; simp at h
      | ok rest' =>
        rw [h2] at h
        simp only [Except.ok.injEq] at h
        subst h
        rcases List.mem_cons.1 hr' with rfl | hmem
        · exact ⟨r, List.mem_cons_self r rest, h1⟩
        · obtain ⟨r2, hr2, hok2⟩ := ih rest' h2 r' hmem
          exact ⟨r2, List.mem_cons_of_mem r hr2, hok2⟩

theorem foldl_insertCol_of_subset :
    ∀ (ks acc : List String), (∀ k ∈ ks, k ∈ acc) → ks.foldl insertCol acc = acc := by
  intro ks
  induction ks with
  | nil => intro acc _; rfl
  | cons k ks ih =>
    intro acc hsub
    have hk : k ∈ acc := hsub k (List.mem_cons_self k ks)
    simp only [List.foldl_cons]
    rw [show insertCol acc k = acc from by simp [insertCol, hk]]
    exact ih acc fun k2 hk2 => hsub k2 (List.mem_cons_of_mem _ hk2)

theorem foldl_insertCol_nodup :
    ∀ (ks acc : List String), ks.Nodup → (∀ k ∈ ks, k ∉ acc) →
      ks.foldl insertCol acc = acc ++ ks := by
  intro ks
  induction ks with
  | nil => intro acc _ _; simp
  | cons k ks ih =>
    intro acc hnd hdis
    simp only [List.foldl_cons]
    have hk : k ∉ acc := hdis k (List.mem_cons_self k ks)
    rw [show insertCol acc k = acc ++ [k] from by simp [insertCol, hk]]
    rw [ih (acc ++ [k]) (List.nodup_cons.1 hnd).2 ?hdis2]
    · simp
    case hdis2 =>
      intro k2 hk2
      rw [List.mem_append]
      rintro (h2 | h2)
      · exact hdis k2 (List.mem_cons_of_mem _ hk2) h2
      · have hk2k : k2 = k := by simpa using h2
        exact (List.nodup_cons.1 hnd).1 (hk2k ▸ hk2)

theorem foldl_addRowCols_fixed :
    ∀ (rs : List TableRow) (ks : List String),
      (∀ r ∈ rs, ∀ k ∈ rowKeys r, k ∈ ks) → rs.foldl addRowCols ks = ks := by
  intro rs
  induction rs with
  | nil => intro ks _; rfl
  | cons r rest ih =>
    intro ks hsub
    simp only [List.foldl_cons]
    rw [show addRowCols ks r = ks from
      foldl_insertCol_of_subset _ _ (hsub r (List.mem_cons_self r rest))]
    exact ih ks fun r2 hr2 => hsub r2 (List.mem_cons_of_mem _ hr2)

theorem columns_of_uniform (rows : List TableRow) (ks : List String)
    (huni : ∀ r ∈ rows, rowKeys r = ks) (hne : rows ≠ []) (hnd : ks.Nodup) :
    DataFrame.columns { rows := rows } = ks := by
  cases rows with
  | nil => exact absurd rfl hne
  | cons r0 rest =>
    show (r0 :: rest).foldl addRowCols [] = ks
    simp only [List.foldl_cons]
    have h0 : addRowCols [] r0 = ks := by
      unfold addRowCols
      rw [huni r0 (List.mem_cons_self r0 rest)]
      rw [foldl_insertCol_nodup ks [] hnd (by simp)]
      simp
    rw [h0]
    exact foldl_addRowCols_fixed rest ks fun r hr k hk =>
      (huni r (List.mem_cons_of_mem r0 hr)) ▸ hk

theorem columns_congr_keys (rows rows2 : List TableRow)
    (h : rows.map rowKeys = rows2.map rowKeys) :
    DataFrame.columns { rows := rows } = DataFrame.columns { rows := rows2 } := by
  have key : ∀ (rs : List TableRow),
      rs.foldl addRowCols [] =
        (rs.map rowKeys).foldl (fun acc ks => ks.foldl insertCol acc) [] := by
    intro rs
    rw [List.foldl_map]
    rfl
  show rows.foldl addRowCols [] = rows2.foldl addRowCols []
  rw [key rows, key rows2, h]

theorem mem_foldl_insertCol_acc :
    ∀ (ks acc : List String) (k : String), k ∈ acc → k ∈ ks.foldl insertCol acc := by
  intro ks
  induction ks with
  | nil => intro acc k h; exact h
  | cons k1 ks ih =>
    intro acc k h
    simp only [List.foldl_cons]
    refine ih (insertCol acc k1) k ?_
    unfold insertCol
    split
    · exact h
    · exact List.mem_append.2 (Or.inl h)

theorem mem_foldl_insertCol :
    ∀ (ks acc : List String) (k : String), k ∈ ks → k ∈ ks.foldl insertCol acc := by
  intro ks
  induction ks with
  | nil => intro acc k h; simp at h
  | cons k1 ks ih =>
    intro acc k h
    simp only [List.foldl_cons]
    rcases List.mem_cons.1 h with rfl | hmem
    · refine mem_foldl_insertCol_acc ks (insertCol acc k) k ?_
      unfold insertCol
      split
      · assumption
      · exact List.mem_append.2 (Or.inr (by simp))
    · exact ih (insertCol acc k1) k hmem

theorem mem_foldl_addRowCols_acc :
    ∀ (rs : List TableRow) (acc : List String) (k : String),
      k ∈ acc → k ∈ rs.foldl addRowCols acc := by
  intro rs
  induction rs with
  | nil => intro acc k h; exact h
  | cons r0 rest ih =>
    intro acc k h
    simp only [List.foldl_cons]
    exact ih (addRowCols acc r0) k (mem_foldl_insertCol_acc (rowKeys r0) acc k h)

theorem mem_foldl_addRowCols :
    ∀ (rs : List TableRow) (acc : List String) (r : TableRow) (k : String),
      r ∈ rs → k ∈ rowKeys r → k ∈ rs.foldl addRowCols acc := by
  intro rs
  induction rs with
  | nil => intro acc r k h _; simp at h
  | cons r0 rest ih =>
    intro acc r k hr hk
    simp only [List.foldl_cons]
    rcases List.mem_cons.1 hr with rfl | hmem
    · exact mem_foldl_addRowCols_acc rest (addRowCols acc r) k
        (mem_foldl_insertCol (rowKeys r) acc k hk)
    · exact ih (addRowCols acc r0) r k hmem hk

theorem mem_columns_of_mem (rows : List TableRow) (r : TableRow) (k : String)
    (hr : r ∈ rows) (hk : k ∈ rowKeys r) :
    k ∈ DataFrame.columns { rows := rows } :=
  mem_foldl_addRowCols rows [] r k hr hk

theorem validateData_ok_eq (df df2 : DataFrame)
    (h : validateData df = Except.ok df2) : df2 = df := by
  unfold validateData at h
  split at h
  · injection h with h2; exact h2.symm
  · simp at h

theorem mkDate?_shape (y m d : Nat) (w : Value) (h : mkDate? y m d = some w) :
    ∃ y2 m2 d2, w = Value.date y2 m2 d2 := by
  unfold mkDate? at h
  split at h
  · exact ⟨y, m, d, by injection h with h2; exact h2.symm⟩
  · simp at h

theorem parseDateChars?_isDate (cs : List Char) (w : Value)
    (h : parseDateChars? cs = some w) : ∃ y m d, w = Value.date y m d := by
  unfold parseDateChars? at h
  repeat' split at h
  all_goals first
    | exact mkDate?_shape _ _ _ w h
    | simp_all

theorem parseDate?_isDate (s : String) (w : Value) (h : parseDate? s = some w) :
    ∃ y m d, w = Value.date y m d :=
  parseDateChars?_isDate s.toList w h

theorem toDatetimeValue_str_ok (s : String) (w : Value) (h : parseDate? s = some w) :
    toDatetimeValue (Value.str s) = Except.ok w := by
  simp [toDatetimeValue, h]

theorem convertRowDate_cons_date (v : Value) (rest : TableRow) :
    convertRowDate (("date", v) :: rest) =
      match toDatetimeValue v with
      | Except.error e => Except.error e
      | Except.ok v' =>
        match convertRowDate rest with
        | Except.error e => Except.error e
        | Except.ok rest' => Except.ok (("date", v') :: rest') := rfl

theorem convertRowDate_cons_ne (k : String) (hk : k ≠ "date") (v : Value)
    (rest : TableRow) :
    convertRowDate ((k, v) :: rest) =
      match convertRowDate rest with
      | Except.error e => Except.error e
      | Except.ok rest' => Except.ok ((k, v) :: rest') := by
  simp only [convertRowDate, if_neg hk]

theorem convertRowDate_props (r : TableRow)
    (h : ∀ p ∈ r, p.1 = "date" → ∃ s w, p.2 = Value.str s ∧ parseDate? s = some w) :
    ∃ r', convertRowDate r = Except.ok r' ∧
      rowKeys r' = rowKeys r ∧
      (∀ k, k ≠ "date" → r'.lookup k = r.lookup k) ∧
      (∀ v, ("date", v) ∈ r → ∃ y m d, r'.lookup "date" = some (Value.date y m d)) := by
  induction r with
  | nil => exact ⟨[], rfl, rfl, fun k _ => rfl, fun v hv => by simp at hv⟩
  | cons p rest ih =>
    obtain ⟨k, v⟩ := p
    obtain ⟨rest', hok, hkeys, hlk, hdate⟩ :=
      ih (fun q hq hq1 => h q (List.mem_cons_of_mem _ hq) hq1)
    by_cases hk : k = "date"
    · subst hk
      obtain ⟨s, w, hv, hw⟩ := h ("date", v) (List.mem_cons_self _ rest) rfl
      have hv' : v = Value.str s := hv
      subst hv'
      obtain ⟨y, m, d, hwd⟩ := parseDate?_isDate s w hw
      refine ⟨("date", w) :: rest', ?_, ?_, ?_, ?_⟩
      · simp only [convertRowDate_cons_date, toDatetimeValue_str_ok s w hw, hok]
      · have hkeys' := hkeys
        simp only [rowKeys, List.map_cons] at hkeys' ⊢
        rw [hkeys']
      · intro k2 hk2
        rw [List.lookup_cons, List.lookup_cons, beq_false_of_ne hk2]
        exact hlk k2 hk2
      · intro v2 _
        refine ⟨y, m, d, ?_⟩
        rw [List.lookup_cons, beq_self_eq_true]
        rw [hwd]
    · refine ⟨(k, v) :: rest', ?_, ?_, ?_, ?_⟩
      · simp only [convertRowDate_cons_ne k hk v rest, hok]
      · have hkeys' := hkeys
        simp only [rowKeys, List.map_cons] at hkeys' ⊢
        rw [hkeys']
      · intro k2 hk2
        by_cases hk2k : k2 = k
        · subst hk2k
          rw [List.lookup_cons, List.lookup_cons, beq_self_eq_true]
        · rw [List.lookup_cons, List.lookup_cons,
            beq_false_of_ne (fun hc => hk2k hc)]
          exact hlk k2 hk2
      · intro v2 hv2
        rcases List.mem_cons.1 hv2 with heq | hmem
        · exact absurd (congrArg Prod.fst heq).symm hk
        · obtain ⟨y, m, d, hd⟩ := hdate v2 hmem
          refine ⟨y, m, d, ?_⟩
          rw [List.lookup_cons, beq_false_of_ne (fun hc => hk hc.symm)]
          exact hd

theorem validateData_error_kind (df : DataFrame) (e : PyErr)
    (h : validateData df = Except.error e) : e = PyErr.validationError := by
  unfold validateData at h
  split at h
  · simp at h
  · injection h with h2; exact h2.symm

theorem sw_rows_pipeline (domain : String) :
    ∀ (visits_data : List TableRow),
      (∀ r ∈ visits_data,
        (∃ v, ("date", v) ∈ r) ∧
        (∀ p ∈ r, p.1 = "date" → ∃ s w, p.2 = Value.str s ∧ parseDate? s = some w)) →
      ∃ rows2,
        convertDateColumn
          (visits_data.map (fun r => dictInsert r "domain" (Value.str domain))) =
          Except.ok rows2 ∧
        rows2.length = visits_data.length ∧
        (∀ r' ∈ rows2, r'.lookup "domain" = some (Value.str domain)) ∧
        (∀ r' ∈ rows2, ∃ y m d, r'.lookup "date" = some (Value.date y m d)) := by
  intro visits_data
  induction visits_data with
  | nil =>
    intro _
    exact ⟨[], rfl, rfl, fun r hr => by simp at hr, fun r hr => by simp at hr⟩
  | cons r rest ih =>
    intro hall
    have hhead := hall r (List.mem_cons_self r rest)
    obtain ⟨rows2', hconv', hlen', hdom', hdate'⟩ :=
      ih fun r2 hr2 => hall r2 (List.mem_cons_of_mem r hr2)
    have hdatepairs : ∀ p ∈ dictInsert r "domain" (Value.str domain),
        p.1 = "date" → ∃ s w, p.2 = Value.str s ∧ parseDate? s = some w := by
      intro p hp hpk
      rcases mem_dictInsert_cases r "domain" (Value.str domain) p hp with rfl | ⟨hpr, _⟩
      · simp at hpk
      · exact hhead.2 p hpr hpk
    obtain ⟨r', hok, _, hlk, hdate⟩ :=
      convertRowDate_props (dictInsert r "domain" (Value.str domain)) hdatepairs
    refine ⟨r' :: rows2', ?_, by simp [hlen'], ?_, ?_⟩
    · simp only [List.map_cons, convertDateColumn, hok, hconv']
    · intro r2 hr2
      rcases List.mem_cons.1 hr2 with rfl | hmem
      · rw [hlk "domain" (by decide)]
        exact lookup_dictInsert_self r "domain" (Value.str domain)
      · exact hdom' r2 hmem
    · intro r2 hr2
      rcases List.mem_cons.1 hr2 with rfl | hmem
      · obtain ⟨v, hv⟩ := hhead.1
        exact hdate v (mem_dictInsert_of_ne r "domain" (Value.str domain)
          ("date", v) hv (show ("date" : String) ≠ "domain" by decide))
      · exact hdate' r2 hmem

theorem digitsVal_nil : digitsVal [] = 0 := rfl

theorem digitsVal_ten : digitsVal ['1', '0'] = 10 := by decide

theorem digitsVal_eight : digitsVal ['8'] = 8 := by decide

theorem digitsVal_intpart : digitsVal ['1', '2', '3'] = 123 := by decide

theorem digitsVal_fracpart : digitsVal ['4', '5'] = 45 := by decide

theorem digitsVal_three : digitsVal ['3'] = 3 := by decide

theorem parseFloatParts?_ten : parseFloatParts? "10" = some (1, 10, 0, 0, 0) := by
  decide

theorem parseFloat?_ten : parseFloat? "10" = some (10 : Rat) := by
  unfold parseFloat?
  rw [parseFloatParts?_ten]
  simp only [Option.map_some']
  norm_num [ratOfFloatParts]

theorem parseFloatParts?_eight : parseFloatParts? "8" = some (1, 8, 0, 0, 0) := by
  decide

theorem parseFloat?_eight : parseFloat? "8" = some (8 : Rat) := by
  unfold parseFloat?
  rw [parseFloatParts?_eight]
  simp only [Option.map_some']
  norm_num [ratOfFloatParts]

theorem parseFloatParts?_frac : parseFloatParts? "123.45" = some (1, 123, 45, 2, 0) := by
  decide

theorem parseFloat?_frac : parseFloat? "123.45" = some ((123.45 : Rat)) := by
  unfold parseFloat?
  rw [parseFloatParts?_frac]
  simp only [Option.map_some']
  norm_num [ratOfFloatParts]

theorem parseFloat?_abc : parseFloat? "abc" = none := by
  decide

theorem parseFloatParts?_three : parseFloatParts? "3" = some (1, 3, 0, 0, 0) := by
  decide

theorem parseFloat?_three : parseFloat? "3" = some (3 : Rat) := by
  unfold parseFloat?
  rw [parseFloatParts?_three]
  simp only [Option.map_some']
  norm_num [ratOfFloatParts]

/-- C1: the spec claims `SimilarwebConnector.get_traffic_sources` issues the
GET request, falls back to an empty table when the primary field is missing,
validates, and always returns a table.  In the source the function body ends
right after building the `params` dict — no request is issued and nothing is
returned, so every call evaluates to Python `None`, contradicting the
function's own docstring ("Returns: DataFrame with traffic sources data").
This theorem evaluates the modelled source function at a concrete input. -/
theorem claim_C1_get_traffic_sources_returns_none :
    SimilarwebConnector.get_traffic_sources "example.com" "2024-01" "2024-03"
      "world" = none := rfl

/-- C2: for every GA4 response without a `rows` key, `get_data` returns a
zero-row table and raises nothing, independently of the validator (so the
validation pass is never consulted) and of whatever headers the response
carries (so no header extraction, flattening or date conversion can fail). -/
theorem claim_C2_missing_rows_empty :
    ∀ (validate : DataFrame → Except PyErr DataFrame) (response : GAResponse),
      response.rows = none →
      GoogleAnalyticsConnector.get_data_result_with validate response =
        Except.ok { rows := [] } ∧
      GoogleAnalyticsConnector.get_data_result response =
        Except.ok { rows := [] } := by
  intro validate response h
  constructor
  · unfold GoogleAnalyticsConnector.get_data_result_with
    rw [h]
  · unfold GoogleAnalyticsConnector.get_data_result
      GoogleAnalyticsConnector.get_data_result_with
    rw [h]

theorem claim_C2_witness :
    GoogleAnalyticsConnector.get_data_result_with
      (fun _ => Except.error PyErr.validationError) c2_witness_response =
      Except.ok { rows := [] } ∧
    GoogleAnalyticsConnector.get_data_result c2_witness_response =
      Except.ok { rows := [] } :=
  claim_C2_missing_rows_empty (fun _ => Except.error PyErr.validationError)
    c2_witness_response rfl

/-- C5: `GoogleAnalyticsConnector.get_traffic_sources` fixes
`metrics = [sessions, users]` and `dimensions = [source, medium]` (visible in
the request it builds), and on the spec's mocked one-row response it returns
exactly one row `{source: "google", medium: "organic", sessions: 10.0,
users: 8.0}`. -/
theorem claim_C5_traffic_sources_scenario :
    (∀ (property_id start_date end_date : String),
      GoogleAnalyticsConnector.get_traffic_sources_request property_id
          start_date end_date =
        { endpoint := "properties/" ++ property_id ++ ":runReport"
        , method := "POST"
        , body :=
          { dateRanges := [{ startDate := start_date, endDate := end_date }]
          , metrics := [{ name := "sessions" }, { name := "users" }]
          , dimensions := [{ name := "source" }, { name := "medium" }] } }) ∧
    GoogleAnalyticsConnector.get_traffic_sources_result c5_response =
      Except.ok { rows :=
        [[("source", Value.str "google"), ("medium", Value.str "organic"),
          ("sessions", Value.num 10), ("users", Value.num 8)]] } := by
  refine ⟨fun _ _ _ => rfl, ?_⟩
  simp [GoogleAnalyticsConnector.get_traffic_sources_result,
    GoogleAnalyticsConnector.get_data_result,
    GoogleAnalyticsConnector.get_data_result_with, c5_response,
    flattenGARows, flattenGARow, addEnumeratedValues, convMetric, convDimension,
    parseFloat?_ten, parseFloat?_eight, dictInsert, DataFrame.columns,
    addRowCols, rowKeys, insertCol, convertDateColumn, validateData,
    DataFrame.columnValues, columnConsistent, Value.isNum, Value.isStr,
    List.lookup]
  norm_num [ratOfFloatParts, digitsVal_nil, digitsVal_ten, digitsVal_eight,
    digitsVal_intpart, digitsVal_fracpart, digitsVal_three]

/-- C7: `get_available_datasets` on both connectors is a pure constant (the
embedding is a Lean value, so two reads are definitionally equal and there is
no I/O or state to mutate), and the GA4 catalog is exactly 5 metrics followed
by 5 dimensions in the stated order. -/
theorem claim_C7_available_datasets_static :
    GoogleAnalyticsConnector.get_available_datasets =
      GoogleAnalyticsConnector.get_available_datasets ∧
    SimilarwebConnector.get_available_datasets =
      SimilarwebConnector.get_available_datasets ∧
    GoogleAnalyticsConnector.get_available_datasets.map (fun e => e.1) =
      ["sessions", "users", "pageviews", "bounceRate", "sessionDuration",
        "date", "country", "deviceCategory", "source", "medium"] ∧
    (GoogleAnalyticsConnector.get_available_datasets.take 5).map (fun e => e.2.1) =
      ["metric", "metric", "metric", "metric", "metric"] ∧
    (GoogleAnalyticsConnector.get_available_datasets.drop 5).map (fun e => e.2.1) =
      ["dimension", "dimension", "dimension", "dimension", "dimension"] ∧
    SimilarwebConnector.get_available_datasets.map (fun e => e.1) =
      ["website_overview", "traffic_sources", "audience_interests",
        "similar_sites", "top_pages"] :=
  ⟨rfl, rfl, rfl, rfl, rfl, rfl⟩

/-- C8: `get_data` defaults `dimensions` to `['date']` when omitted and its
`start_date`/`end_date` parameters to `'30daysAgo'`/`'today'`, and builds a
POST body with exactly one date range, the metrics list in order, and the
dimensions list analogously, against `properties/{property_id}:runReport`. -/
theorem claim_C8_request_shape :
    ∀ (property_id : String) (metrics : List String)
      (dimensions : Option (List String)) ( start_date end_date : String),
      (GoogleAnalyticsConnector.get_data_request property_id metrics dimensions
          start_date end_date).endpoint =
        "properties/" ++ property_id ++ ":runReport" ∧
      (GoogleAnalyticsConnector.get_data_request property_id metrics dimensions
          start_date end_date).method = "POST" ∧
      (GoogleAnalyticsConnector.get_data_request property_id metrics dimensions
          start_date end_date).body.dateRanges =
        [{ startDate := start_date, endDate := end_date }] ∧
      (GoogleAnalyticsConnector.get_data_request property_id metrics dimensions
          start_date end_date).body.metrics =
        metrics.map (fun metric => { name := metric }) ∧
      (GoogleAnalyticsConnector.get_data_request property_id metrics dimensions
          start_date end_date).body.dimensions =
        (dimensions.getD ["date"]).map (fun dimension => { name := dimension }) ∧
      GoogleAnalyticsConnector.get_data_default_start_date = "30daysAgo" ∧
      GoogleAnalyticsConnector.get_data_default_end_date = "today" ∧
      (GoogleAnalyticsConnector.get_data_request property_id metrics none
          start_date end_date).body.dimensions = [{ name := "date" }] := by
  intro property_id metrics dimensions start_date end_date
  exact ⟨rfl, rfl, rfl, rfl, rfl, rfl, rfl, rfl⟩

/-- C9: round-trip of the numeric metric string `"123.45"`: the parsed float
equals the literal 123.45 exactly, and end to end the output cell of
`get_data` is that exact value. -/
theorem claim_C9_roundtrip :
    parseFloat? "123.45" = some ((123.45 : Rat)) ∧
    GoogleAnalyticsConnector.get_data_result c9_response =
      Except.ok { rows := [[("sessions", Value.num ((123.45 : Rat)))]] } := by
  refine ⟨parseFloat?_frac, ?_⟩
  simp [GoogleAnalyticsConnector.get_data_result,
    GoogleAnalyticsConnector.get_data_result_with, c9_response,
    flattenGARows, flattenGARow, addEnumeratedValues, convMetric,
    parseFloat?_frac, dictInsert, DataFrame.columns, addRowCols, rowKeys,
    insertCol, convertDateColumn, validateData, DataFrame.columnValues,
    columnConsistent, Value.isNum, Value.isStr]
  norm_num [ratOfFloatParts, digitsVal_nil, digitsVal_ten, digitsVal_eight,
    digitsVal_intpart, digitsVal_fracpart, digitsVal_three]

/-- C3 counterexample: the claim as stated fails on a response whose `rows`
list is present but empty while the header lists are nonempty.  `get_data`
then returns an empty frame (`pd.DataFrame([])` has no columns), so the
column list is `[]`, not the promised `["date", "sessions"]`. -/
theorem claim_C3_counterexample :
    ((c3_empty_rows_response.dimensionHeaders.getD []).map NameEntry.name
      ++ (c3_empty_rows_response.metricHeaders.getD []).map NameEntry.name) =
      ["date", "sessions"] ∧
    GoogleAnalyticsConnector.get_data_result c3_empty_rows_response =
      Except.ok { rows := [] } ∧
    (DataFrame.mk []).columns ≠ ["date", "sessions"] := by
  refine ⟨rfl, rfl, ?_⟩
  intro h
  simp [DataFrame.columns] at h

/-- C3 (amended): on success the row count always equals `len(rows)`; the
column order equals dimension header names followed by metric header names
provided additionally that `rows` is nonempty (else the frame has no columns
at all) and that the combined header names are pairwise distinct (else the
Python dict collapses duplicate columns). -/
theorem claim_C3_amended :
    ∀ (response : GAResponse) (rows : List GARow) (t : DataFrame),
      response.rows = some rows →
      GoogleAnalyticsConnector.get_data_result response = Except.ok t →
      t.rows.length = rows.length ∧
      (rows ≠ [] →
        (((response.dimensionHeaders.getD []).map NameEntry.name)
          ++ ((response.metricHeaders.getD []).map NameEntry.name)).Nodup →
        (∀ r ∈ rows,
          (r.dimensionValues.getD []).length =
            ((response.dimensionHeaders.getD []).map NameEntry.name).length ∧
          (r.metricValues.getD []).length =
            ((response.metricHeaders.getD []).map NameEntry.name).length) →
        t.columns =
          ((response.dimensionHeaders.getD []).map NameEntry.name)
            ++ ((response.metricHeaders.getD []).map NameEntry.name)) := by
  intro response rows t hrows hok
  simp only [GoogleAnalyticsConnector.get_data_result,
    GoogleAnalyticsConnector.get_data_result_with, hrows] at hok
  cases hflat : flattenGARows
      ((response.dimensionHeaders.getD []).map NameEntry.name)
      ((response.metricHeaders.getD []).map NameEntry.name) rows with
  | error e => rw [hflat] at hok; simp at hok
  | ok f =>
    simp only [hflat] at hok
    have hflen := flattenGARows_ok_length _ _ rows f hflat
    have huniform : ∀ (hnd : (((response.dimensionHeaders.getD []).map NameEntry.name)
          ++ ((response.metricHeaders.getD []).map NameEntry.name)).Nodup),
        (∀ r ∈ rows,
          (r.dimensionValues.getD []).length =
            ((response.dimensionHeaders.getD []).map NameEntry.name).length ∧
          (r.metricValues.getD []).length =
            ((response.metricHeaders.getD []).map NameEntry.name).length) →
        ∀ r' ∈ f, rowKeys r' =
          ((response.dimensionHeaders.getD []).map NameEntry.name)
            ++ ((response.metricHeaders.getD []).map NameEntry.name) := by
      intro hnd hlens r' hr'
      obtain ⟨row, hrow, hokrow⟩ := flattenGARows_ok_mem _ _ rows f hflat r' hr'
      exact flattenGARow_keys _ _ row r' (hlens row hrow).1 (hlens row hrow).2
        hnd hokrow
    have hfne : rows ≠ [] → f ≠ [] := by
      intro hne hf
      exact hne (List.length_eq_zero.1 (by rw [← hflen, hf]; rfl))
    by_cases hd : "date" ∈ DataFrame.columns { rows := f }
    · rw [if_pos hd] at hok
      cases hconv : convertDateColumn f with
      | error e => rw [hconv] at hok; simp at hok
      | ok rows2 =>
        simp only [hconv] at hok
        have ht : t = { rows := rows2 } := validateData_ok_eq _ t hok
        subst ht
        constructor
        · rw [show ({ rows := rows2 } : DataFrame).rows = rows2 from rfl]
          rw [convertDateColumn_ok_length f rows2 hconv, hflen]
        · intro hne hnd hlens
          have hcols2 : DataFrame.columns { rows := rows2 } =
              DataFrame.columns { rows := f } :=
            columns_congr_keys rows2 f (convertDateColumn_ok_keys f rows2 hconv)
          rw [show ({ rows := rows2 } : DataFrame).columns =
            DataFrame.columns { rows := rows2 } from rfl, hcols2]
          exact columns_of_uniform f _ (huniform hnd hlens) (hfne hne) hnd
    · rw [if_neg hd] at hok
      have ht : t = { rows := f } := validateData_ok_eq _ t hok
      subst ht
      constructor
      · exact hflen
      · intro hne hnd hlens
        exact columns_of_uniform f _ (huniform hnd hlens) (hfne hne) hnd

theorem claim_C3_witness :
    (DataFrame.mk [[("country", Value.str "US"), ("sessions", Value.num 3)]]).rows.length
      = 1 ∧
    (DataFrame.mk [[("country", Value.str "US"), ("sessions", Value.num 3)]]).columns
      = ["country", "sessions"] := by
  have hok : GoogleAnalyticsConnector.get_data_result c3_small_response =
      Except.ok { rows := [[("country", Value.str "US"), ("sessions", Value.num 3)]] } := by
    simp [GoogleAnalyticsConnector.get_data_result,
      GoogleAnalyticsConnector.get_data_result_with, c3_small_response,
      flattenGARows, flattenGARow, addEnumeratedValues, convMetric, convDimension,
      parseFloat?_three, dictInsert, DataFrame.columns, addRowCols, rowKeys,
      insertCol, convertDateColumn, validateData, DataFrame.columnValues,
      columnConsistent, Value.isNum, Value.isStr, List.lookup]
    norm_num [ratOfFloatParts, digitsVal_nil, digitsVal_three]
  have h := claim_C3_amended c3_small_response
    [{ dimensionValues := some [{ value := "US" }]
     , metricValues := some [{ value := "3" }] }]
    { rows := [[("country", Value.str "US"), ("sessions", Value.num 3)]] }
    rfl hok
  refine ⟨h.1, h.2 (by simp) (by decide) ?_⟩
  intro r hr
  rw [List.mem_singleton] at hr
  subst hr
  exact ⟨rfl, rfl⟩

/-- C4: inside `get_data`'s flattening, each `dimensionValues[i]` is bound to
column `dimensionHeaders[i].name` as a string and each `metricValues[i]` to
`metricHeaders[i].name` parsed as a float (first conjunct: on success the row
dict is literally the two zips, with the metric strings all parsed); and a
non-numeric metric value string makes the whole operation fail with
`TypeConversionError` and no other error kind (second conjunct). -/
theorem claim_C4_flatten_bindings :
    (∀ (dimension_headers metric_headers : List String) (row : GARow)
        (row_data : TableRow),
      (row.dimensionValues.getD []).length = dimension_headers.length →
      (row.metricValues.getD []).length = metric_headers.length →
      (dimension_headers ++ metric_headers).Nodup →
      flattenGARow dimension_headers metric_headers row = Except.ok row_data →
      ∃ qs, parseMetricValues? (row.metricValues.getD []) = some qs ∧
        row_data =
          dimension_headers.zip
            ((row.dimensionValues.getD []).map (fun v => Value.str v.value))
          ++ metric_headers.zip (qs.map Value.num)) ∧
    (∀ (response : GAResponse) (rows : List GARow),
      response.rows = some rows →
      (∀ r ∈ rows,
        (r.dimensionValues.getD []).length ≤
          (response.dimensionHeaders.getD []).length ∧
        (r.metricValues.getD []).length ≤
          (response.metricHeaders.getD []).length) →
      (∃ r ∈ rows, ∃ v ∈ r.metricValues.getD [], parseFloat? v.value = none) →
      GoogleAnalyticsConnector.get_data_result response =
        Except.error PyErr.typeConversionError) := by
  constructor
  · intro dimension_headers metric_headers row row_data hdlen hmlen hnd hok
    obtain ⟨ws, hca, hwlen, hr⟩ :=
      flattenGARow_ok_shape dimension_headers metric_headers row row_data
        hdlen hmlen hnd hok
    rw [convAll_convMetric] at hca
    cases hp : parseMetricValues? (row.metricValues.getD []) with
    | none => rw [hp] at hca; simp at hca
    | some qs =>
      rw [hp] at hca
      simp only [Except.ok.injEq] at hca
      exact ⟨qs, rfl, by rw [hr, hca]⟩
  · intro response rows hrows hle hbad
    have hle2 : ∀ r ∈ rows,
        (r.dimensionValues.getD []).length ≤
          ((response.dimensionHeaders.getD []).map NameEntry.name).length ∧
        (r.metricValues.getD []).length ≤
          ((response.metricHeaders.getD []).map NameEntry.name).length := by
      intro r hr
      simpa using hle r hr
    have hferr := flattenGARows_error_of_bad
      ((response.dimensionHeaders.getD []).map NameEntry.name)
      ((response.metricHeaders.getD []).map NameEntry.name) rows hle2 hbad
    simp only [GoogleAnalyticsConnector.get_data_result,
      GoogleAnalyticsConnector.get_data_result_with, hrows, hferr]

theorem claim_C4_witness :
    (∃ qs, parseMetricValues? (c4_good_row.metricValues.getD []) = some qs ∧
      ([("source", Value.str "google"), ("sessions", Value.num 10)] : TableRow) =
        ["source"].zip ((c4_good_row.dimensionValues.getD []).map
          (fun v => Value.str v.value))
        ++ ["sessions"].zip (qs.map Value.num)) ∧
    GoogleAnalyticsConnector.get_data_result c4_bad_response =
      Except.error PyErr.typeConversionError := by
  constructor
  · exact claim_C4_flatten_bindings.1 ["source"] ["sessions"] c4_good_row
      [("source", Value.str "google"), ("sessions", Value.num 10)]
      rfl rfl (by decide)
      (by
        simp [flattenGARow, addEnumeratedValues, convDimension, convMetric,
          parseFloat?_ten, dictInsert, c4_good_row]
        norm_num [ratOfFloatParts, digitsVal_nil, digitsVal_ten])
  · refine claim_C4_flatten_bindings.2 c4_bad_response [c4_bad_row] rfl ?_ ?_
    · intro r hr
      rw [List.mem_singleton] at hr
      subst hr
      exact ⟨by decide, by decide⟩
    · exact ⟨c4_bad_row, by simp, { value := "abc" }, by simp [c4_bad_row],
        parseFloat?_abc⟩

/-- C6 counterexample: the claim as stated fails on a response whose `visits`
field is present but the empty list.  `pd.DataFrame([])` has no columns, so
the unguarded `df['date'] = pd.to_datetime(df['date'])` raises `KeyError`
instead of returning the claimed zero-row table. -/
theorem claim_C6_counterexample :
    SimilarwebConnector.get_website_overview_result "example.com"
      c6_empty_visits_response = Except.error PyErr.keyError := rfl

/-- C6 (amended): a response without a `visits` key yields the empty table;
a response with a nonempty `visits` list, each entry of which carries a
`date` key whose values are all parseable date strings, yields — after the
constant `domain` column is injected and the `date` column is converted —
the shared validation pass applied to a table with one row per entry, every
row holding `domain` = the input domain and a date-typed `date` value.
(The claim's original universal form also promised a table for an empty or
date-less `visits` list, where the code instead raises `KeyError`.) -/
theorem claim_C6_amended :
    (∀ (domain : String) (response : SWResponse),
      response.visits = none →
      SimilarwebConnector.get_website_overview_result domain response =
        Except.ok { rows := [] }) ∧
    (∀ (domain : String) (response : SWResponse) (visits_data : List TableRow),
      response.visits = some visits_data →
      visits_data ≠ [] →
      (∀ r ∈ visits_data,
        (∃ v, ("date", v) ∈ r) ∧
        (∀ p ∈ r, p.1 = "date" →
          ∃ s w, p.2 = Value.str s ∧ parseDate? s = some w)) →
      ∃ t, SimilarwebConnector.get_website_overview_result domain response =
          validateData t ∧
        t.rows.length = visits_data.length ∧
        (∀ r ∈ t.rows, r.lookup "domain" = some (Value.str domain)) ∧
        (∀ r ∈ t.rows, ∃ y m d, r.lookup "date" = some (Value.date y m d))) := by
  constructor
  · intro domain response h
    unfold SimilarwebConnector.get_website_overview_result
    rw [h]
  · intro domain response visits_data hvis hne hall
    obtain ⟨rows2, hconv, hlen, hdom, hdate⟩ := sw_rows_pipeline domain visits_data hall
    refine ⟨{ rows := rows2 }, ?_, hlen, hdom, hdate⟩
    have hdmem : "date" ∈ DataFrame.columns
        { rows := visits_data.map (fun r => dictInsert r "domain" (Value.str domain)) } := by
      cases visits_data with
      | nil => exact absurd rfl hne
      | cons v0 rest =>
        obtain ⟨v, hv⟩ := (hall v0 (List.mem_cons_self v0 rest)).1
        have hk0 : "date" ∈ rowKeys v0 :=
          (mem_rowKeys v0 "date").2 ⟨("date", v), hv, rfl⟩
        have hk1 : "date" ∈ rowKeys (dictInsert v0 "domain" (Value.str domain)) :=
          mem_rowKeys_dictInsert v0 "domain" "date" (Value.str domain) hk0
        exact mem_columns_of_mem _ (dictInsert v0 "domain" (Value.str domain))
          "date" (List.mem_map_of_mem _ (List.mem_cons_self v0 rest)) hk1
    simp only [SimilarwebConnector.get_website_overview_result, hvis,
      if_pos hdmem, hconv]

theorem claim_C6_witness :
    ∃ t, SimilarwebConnector.get_website_overview_result "example.com"
        c6_response = validateData t ∧
      t.rows.length = 1 ∧
      (∀ r ∈ t.rows, r.lookup "domain" = some (Value.str "example.com")) ∧
      (∀ r ∈ t.rows, ∃ y m d, r.lookup "date" = some (Value.date y m d)) := by
  refine claim_C6_amended.2 "example.com" c6_response [c6_visit_row] rfl
    (by simp) ?_
  intro r hr
  rw [List.mem_singleton] at hr
  subst hr
  constructor
  · exact ⟨Value.str "2024-01-15", by simp [c6_visit_row]⟩
  · intro p hp hpk
    simp only [c6_visit_row, List.mem_cons, List.not_mem_nil, or_false] at hp
    rcases hp with rfl | rfl
    · exact ⟨"2024-01-15", Value.date 2024 1 15, rfl, by decide⟩
    · exact absurd hpk (by decide)

/-- C10: the flattening loop of `get_data` is total (never raises
`IndexError`) whenever every row's value lists are no longer than the
corresponding header lists (first conjunct); and with `rows` present but the
header lists missing — they default to `[]` — a row with a nonempty
`dimensionValues` makes `dimension_headers[i]` raise `IndexError` rather than
produce an empty or partial table (second conjunct, stated for any response
whose first row has more dimension values than there are dimension headers). -/
theorem claim_C10_header_bounds :
    (∀ (response : GAResponse) (rows : List GARow),
      response.rows = some rows →
      (∀ r ∈ rows,
        (r.dimensionValues.getD []).length ≤
          (response.dimensionHeaders.getD []).length ∧
        (r.metricValues.getD []).length ≤
          (response.metricHeaders.getD []).length) →
      GoogleAnalyticsConnector.get_data_result response ≠
        Except.error PyErr.indexError) ∧
    (∀ (response : GAResponse) (row : GARow) (rest : List GARow),
      response.rows = some (row :: rest) →
      (response.dimensionHeaders.getD []).length <
        (row.dimensionValues.getD []).length →
      GoogleAnalyticsConnector.get_data_result response =
        Except.error PyErr.indexError) := by
  constructor
  · intro response rows hrows hle hcontra
    simp only [GoogleAnalyticsConnector.get_data_result,
      GoogleAnalyticsConnector.get_data_result_with, hrows] at hcontra
    cases hflat : flattenGARows
        ((response.dimensionHeaders.getD []).map NameEntry.name)
        ((response.metricHeaders.getD []).map NameEntry.name) rows with
    | error e =>
      rw [hflat] at hcontra
      simp only [Except.error.injEq] at hcontra
      have := flattenGARows_error_kind _ _ rows e
        (fun r hr => by simpa using hle r hr) hflat
      rw [this] at hcontra
      exact absurd hcontra.symm (by decide)
    | ok f =>
      simp only [hflat] at hcontra
      by_cases hd : "date" ∈ DataFrame.columns { rows := f }
      · rw [if_pos hd] at hcontra
        cases hconv : convertDateColumn f with
        | error e =>
          rw [hconv] at hcontra
          simp only [Except.error.injEq] at hcontra
          have := convertDateColumn_error_kind f e hconv
          rw [this] at hcontra
          exact absurd hcontra.symm (by decide)
        | ok rows2 =>
          simp only [hconv] at hcontra
          have := validateData_error_kind { rows := rows2 }
            PyErr.indexError hcontra
          exact absurd this (by decide)
      · rw [if_neg hd] at hcontra
        have := validateData_error_kind { rows := f } PyErr.indexError hcontra
        exact absurd this (by decide)
  · intro response row rest hrows hlt
    have h1 : flattenGARow
        ((response.dimensionHeaders.getD []).map NameEntry.name)
        ((response.metricHeaders.getD []).map NameEntry.name) row =
        Except.error PyErr.indexError :=
      flattenGARow_indexError_dims _ _ row (by simpa using hlt)
    have h2 : flattenGARows
        ((response.dimensionHeaders.getD []).map NameEntry.name)
        ((response.metricHeaders.getD []).map NameEntry.name) (row :: rest) =
        Except.error PyErr.indexError := by
      simp [flattenGARows, h1]
    simp only [GoogleAnalyticsConnector.get_data_result,
      GoogleAnalyticsConnector.get_data_result_with, hrows, h2]

theorem claim_C10_witness :
    GoogleAnalyticsConnector.get_data_result c10_bad_response =
      Except.error PyErr.indexError ∧
    GoogleAnalyticsConnector.get_data_result c3_small_response ≠
      Except.error PyErr.indexError := by
  constructor
  · exact claim_C10_header_bounds.2 c10_bad_response
      { dimensionValues := some [{ value := "x" }], metricValues := none }
      [] rfl (by decide)
  · refine claim_C10_header_bounds.1 c3_small_response
      [{ dimensionValues := some [{ value := "US" }]
       , metricValues := some [{ value := "3" }] }] rfl ?_
    intro r hr
    rw [List.mem_singleton] at hr
    subst hr
    exact ⟨by decide, by decide⟩
